import Mathlib

/-!
Verification of the step-sequence executor, budgeted API client, condition
evaluator and iterative improvement loop of the MyAIAgent repository.

The Python sources are shallowly embedded: pure string manipulation is
translated to functions on `List Char` / `String`, floating-point arithmetic
(token-budget ratios, backoff times, quality scores) is modelled with `ℚ`
(all operations involved — division by a positive integer, multiplication by
powers of two, comparison against integer literals — are exact in both
float and `ℚ` on the inputs considered), network calls and other external
collaborators are modelled by oracle functions passed as explicit arguments,
and a raised exception is modelled as an explicit outcome constructor.
-/

namespace AIAgent

/-! ## Python string primitives used by `config_parser.py`

`str.lower` is modelled on its ASCII fragment (all string constants that the
source compares case-insensitively are ASCII). `str.strip` uses Python's
whitespace set. -/

/-- ASCII fragment of Python `str.lower` applied to one character. -/
def pyLower (c : Char) : Char :=
  if 'A' ≤ c ∧ c ≤ 'Z' then Char.ofNat (c.toNat + 32) else c

/-- Lower-case a string given as a character list. -/
def lowerL (l : List Char) : List Char := l.map pyLower

/-- Python whitespace (the default `str.strip` set). -/
def isPyWs (c : Char) : Bool :=
  c == ' ' || c == '\t' || c == '\n' || c == '\r' || c == '\x0b' || c == '\x0c'

/-- Drop elements satisfying `p` from the end of a list. -/
def dropEndWhile (p : Char → Bool) (l : List Char) : List Char :=
  (l.reverse.dropWhile p).reverse

/-- Python `str.strip()` on a character list. -/
def pyStripL (l : List Char) : List Char :=
  dropEndWhile isPyWs (l.dropWhile isPyWs)

/-- The two quote characters accepted by the condition regexes, and by the
Python `strip("'\x22")` call on the right-hand side of `==` conditions. -/
def isQuote (c : Char) : Bool := c == '\'' || c == '"'

/-- Python `str.strip` with the quote-character set. -/
def stripQuotesL (l : List Char) : List Char :=
  dropEndWhile isQuote (l.dropWhile isQuote)

/-- Boolean prefix test on character lists. -/
def isPrefL : List Char → List Char → Bool
  | [], _ => true
  | _ :: _, [] => false
  | a :: l1, b :: l2 => a == b && isPrefL l1 l2

/-- Python `needle in hay` substring test on character lists
(`"" in s` is `True`, as in Python). -/
def isSubL (needle : List Char) : List Char → Bool
  | [] => needle.isEmpty
  | c :: t => isPrefL needle (c :: t) || isSubL needle t

/-- Case-insensitive literal match at the head of a list; on success returns
the remainder.  Models matching a fixed ASCII literal of an `re.IGNORECASE`
pattern. -/
def stripPrefCI : List Char → List Char → Option (List Char)
  | [], s => some s
  | _ :: _, [] => none
  | a :: l1, b :: l2 => if pyLower a == pyLower b then stripPrefCI l1 l2 else none

/-- The lazy group `(.+?)['\x22]` of the condition regexes: scanning the text
after the opening quote, capture at least one non-newline character up to the
first closing quote (single or double); fail if a newline or the end of the
text is reached first (`.` does not match newlines, so a longer capture cannot
succeed either). -/
def lazyCapture (acc : List Char) : List Char → Option (List Char)
  | [] => none
  | c :: t =>
    if isQuote c && !acc.isEmpty then some acc.reverse
    else if c == '\n' then none
    else lazyCapture (c :: acc) t

/-- `re.search` for a pattern `lit['\x22](.+?)['\x22]` (with `re.IGNORECASE`):
try every start position left to right; at each, match the literal
case-insensitively, then an opening quote, then the lazy quoted capture.
Returns the captured group of the leftmost match. -/
def searchQuotedAfter (lit : List Char) : List Char → Option (List Char)
  | [] => none
  | c :: t =>
    match stripPrefCI lit (c :: t) with
    | some (q :: rest) =>
      if isQuote q then
        match lazyCapture [] rest with
        | some cap => some cap
        | none => searchQuotedAfter lit t
      else searchQuotedAfter lit t
    | _ => searchQuotedAfter lit t

/-- Numeric value of a digit run (the regex group `(\d+)`). -/
def digitsVal (l : List Char) : ℕ :=
  l.foldl (fun n c => 10 * n + (c.toNat - 48)) 0

/-- `re.search` for a pattern `lit(\d+)` (with `re.IGNORECASE`): leftmost
position where the literal matches followed by at least one digit; the greedy
group captures the maximal digit run. -/
def searchNumAfter (lit : List Char) : List Char → Option ℕ
  | [] => none
  | c :: t =>
    match stripPrefCI lit (c :: t) with
    | some rest =>
      let ds := rest.takeWhile Char.isDigit
      if ds.isEmpty then searchNumAfter lit t else some (digitsVal ds)
    | none => searchNumAfter lit t

/-! ## `ConfigParser.evaluate_condition` (src/config_parser.py, lines 66-124)

The guards `"response contains" in condition.lower()` etc. of the source are
implied by success of the corresponding `re.search`, and on regex failure the
source falls through to the next branch, so each branch is modelled as an
`Option`-valued partial result tried in source order.  The parser's variable
dictionary is modelled as an association list with string values (`set_variable` stores
values that are stringified on comparison; we model stored values as the
strings they stringify to).  The unused `context` parameter of the source is
omitted. -/

/-- Lookup in the variable bindings (Python dict membership plus indexing). -/
def lookupVar (bindings : List (String × String)) (name : String) : Option String :=
  match bindings.find? (fun p => p.1 == name) with
  | some p => some p.2
  | none => none

/-- The `response length` branch (source lines 101-112): guard on the
substring `response length`, then the `>` regex if `>` occurs in the
condition, otherwise the `<` regex if `<` occurs.  Returns the comparison
direction (`true` for `>`) and the bound, or `none` when the branch falls
through. -/
def lengthBranch (c : List Char) : Option (Bool × ℕ) :=
  if isSubL ("response length").data (lowerL c) then
    if c.contains '>' then
      match searchNumAfter ("response length > ").data c with
      | some n => some (true, n)
      | none => none
    else if c.contains '<' then
      match searchNumAfter ("response length < ").data c with
      | some n => some (false, n)
      | none => none
    else none
  else none

/-- Python `str.split("==")`: cut at each leftmost non-overlapping
occurrence of `==`. -/
def splitOnEqs : List Char → List (List Char)
  | [] => [[]]
  | [c] => [[c]]
  | a :: b :: t =>
    if a == '=' && b == '=' then [] :: splitOnEqs t
    else
      match splitOnEqs (b :: t) with
      | [] => [[a]]
      | h :: r => (a :: h) :: r

/-- The variable-equality branch (source lines 114-121): split on `==`; the
branch produces a value only when the split has exactly two parts.  Returns
the stripped variable name and the stripped, quote-stripped right-hand side.
(When the variable is unbound the source falls through to the default
`False`, which `evaluate_condition` below reproduces.) -/
def eqParts (c : List Char) : Option (String × String) :=
  match splitOnEqs c with
  | [p1, p2] =>
    some (String.mk (pyStripL p1), String.mk (stripQuotesL (pyStripL p2)))
  | _ => none

/-- `ConfigParser.evaluate_condition`.  Branches in source order: response
contains, response not contains, response length comparison, variable
equality; default `false`. -/
def evaluate_condition (bindings : List (String × String))
    (condition response : String) : Bool :=
  let c := pyStripL condition.data
  match searchQuotedAfter ("response contains ").data c with
  | some text => isSubL (lowerL text) (lowerL response.data)
  | none =>
  match searchQuotedAfter ("response not contains ").data c with
  | some text => !(isSubL (lowerL text) (lowerL response.data))
  | none =>
  match lengthBranch c with
  | some (dir, n) =>
    if dir then decide (response.data.length > n) else decide (response.data.length < n)
  | none =>
  match eqParts c with
  | some (name, value) =>
    match lookupVar bindings name with
    | some v => v == value
    | none => false
  | none => false

/-- A condition text matches one of the four supported shapes exactly when
one of the four branches of `evaluate_condition` produces a result (for the
equality shape: the text splits on `==` into exactly two parts). -/
def recognizedCondition (condition : String) : Bool :=
  let c := pyStripL condition.data
  (searchQuotedAfter ("response contains ").data c).isSome ||
  (searchQuotedAfter ("response not contains ").data c).isSome ||
  (lengthBranch c).isSome ||
  (eqParts c).isSome


/-! ## The step graph and `ConfigParser.get_next_prompt_id`
(src/config_parser.py, lines 40-64 and 126-168)

A prompt record of the YAML configuration is modelled by `Step`; absent
dictionary keys are modelled by `none` (for the `start` flag, by `false`).
Python truthiness of an optional string (`if if_condition:`, `if else_action:`,
`if next_id:`) is `isTruthyStr`: a missing key and an empty string are both
falsy. -/

/-- One branch rule of a step: the `if`/`then`/`else` keys of a condition
entry (each possibly missing). -/
structure BranchRule where
  cond : Option String
  thenTarget : Option String
  elseTarget : Option String
deriving DecidableEq

/-- One prompt record of the configuration. -/
structure Step where
  id : Option String
  promptText : String
  start : Bool
  conditions : List BranchRule
  next : Option String
deriving DecidableEq

/-- Python truthiness of an optional string value. -/
def isTruthyStr : Option String → Bool
  | none => false
  | some s => !s.isEmpty

/-- `ConfigParser.get_prompt_by_id`: first prompt whose `id` equals the given
string (a prompt without `id` never matches a string id). -/
def get_prompt_by_id (prompts : List Step) (pid : String) : Option Step :=
  prompts.find? (fun p => p.id == some pid)

/-- `ConfigParser.get_starting_prompt`: the first prompt with a truthy
`start` flag, else the first prompt, else `none` for an empty list. -/
def get_starting_prompt (prompts : List Step) : Option Step :=
  (prompts.find? (fun p => p.start)).orElse (fun _ => prompts.head?)

/-- The `for condition in conditions` loop of `get_next_prompt_id` (source
lines 141-150).  `some t` models an executed `return t` (note the source
returns `then_action` even when that key is missing, which the caller treats
as end-of-sequence); `none` models falling through the whole loop. -/
def ruleScan (bindings : List (String × String)) (response : String) :
    List BranchRule → Option (Option String)
  | [] => none
  | r :: rest =>
    if isTruthyStr r.cond then
      if evaluate_condition bindings (r.cond.getD "") response then some r.thenTarget
      else if isTruthyStr r.elseTarget then some r.elseTarget
      else ruleScan bindings response rest
    else ruleScan bindings response rest

/-- `ConfigParser.get_next_prompt_id` (source lines 126-168): scan the branch
rules; if none returned, use the step's truthy `next`; otherwise locate the
current step in the prompt list by `id` (Python `None == None` holds, so a
step without `id` matches the first id-less prompt) and return the following
prompt's `id`; `none` if there is none. -/
def get_next_prompt_id (prompts : List Step) (bindings : List (String × String))
    (current : Step) (response : String) : Option String :=
  match ruleScan bindings response current.conditions with
  | some t => t
  | none =>
    if isTruthyStr current.next then current.next
    else
      match prompts.findIdx? (fun p => p.id == current.id) with
      | some i =>
        match prompts.get? (i + 1) with
        | some p => p.id
        | none => none
      | none => none

/-- Modelled from the spec (§4.2 step f): the rule-scan as the spec words it —
"the first satisfied rule's then target is selected; if its condition is
false, its else target is selected only if present, otherwise evaluation
continues to the next rule".  Stated for rules that carry a condition (the
spec's BranchRule has a mandatory condition string); "present" is Python
truthiness, as elsewhere in the config schema. -/
def specRuleChoice (bindings : List (String × String)) (response : String) :
    List BranchRule → Option (Option String)
  | [] => none
  | r :: rest =>
    if evaluate_condition bindings (r.cond.getD "") response then some r.thenTarget
    else if isTruthyStr r.elseTarget then some r.elseTarget
    else specRuleChoice bindings response rest

/-- Modelled from the spec (§4.2 step f): "If no rule fires, use the step's
explicit next field; if absent, use the step positionally following the
current step in the graph; if none, the sequence ends." -/
def specNextChoice (prompts : List Step) (bindings : List (String × String))
    (current : Step) (response : String) : Option String :=
  match specRuleChoice bindings response current.conditions with
  | some t => t
  | none =>
    if isTruthyStr current.next then current.next
    else
      match prompts.findIdx? (fun p => p.id == current.id) with
      | some i =>
        match prompts.get? (i + 1) with
        | some p => p.id
        | none => none
      | none => none

/-! ## `APIClient` (src/api_client.py)

Client state and parameters are one record.  The float fields
(`base_backoff`, `warning_threshold`) and the float division of
`check_budget` are modelled with `ℚ`.  The network is an oracle mapping the
attempt index to the outcome of `client.chat.completions.create`: a
response, or one of the three exception classes caught by the source.
A raised `TokenBudgetExceeded` is `Except.error`; besides the result the
model returns the updated client state, the number of network attempts made
and the list of backoff waits slept (in time-units of `base_backoff`). -/

/-- State and configuration of `APIClient`. -/
structure APIClient where
  model : String
  max_retries : ℕ
  base_backoff : ℚ
  max_tokens : Option ℕ
  warning_threshold : ℚ
  hard_stop : Bool
  tokens_used_session : ℕ
  warning_shown : Bool
deriving DecidableEq

/-- Outcome of one attempted call to the remote completion endpoint. -/
inductive ApiOutcome where
  | success (text : String) (tokens : Option ℕ)
  | rateLimit (msg : String)
  | apiError (msg : String)
  | unexpected (msg : String)
deriving DecidableEq

/-- The dictionary returned by `send_prompt`. -/
structure SendResult where
  response : Option String
  model : String
  tokens_used : Option ℕ
  error : Option String
deriving DecidableEq

/-- `APIClient.check_budget` (source lines 58-75).  The session usage ratio
is exact rational division; the Python source divides floats and raises
`ZeroDivisionError` when `max_tokens == 0`, a case outside this model (all
theorems below assume a positive configured maximum). -/
def check_budget (c : APIClient) : String :=
  match c.max_tokens with
  | none => "ok"
  | some m =>
    let usage : ℚ := (c.tokens_used_session : ℚ) / (m : ℚ)
    if usage ≥ 1 then "exceeded"
    else if usage ≥ c.warning_threshold ∧ c.warning_shown = false then "warning"
    else "ok"

/-- The message of the budget-exceeded exception and of the soft-stop error
result (source lines 105-107 and 113). -/
def budgetExceededMsg (c : APIClient) : String :=
  "Token budget exceeded: " ++ toString c.tokens_used_session ++ "/" ++
    (match c.max_tokens with | some m => toString m | none => "None") ++ " tokens used"

/-- Result of running the retry loop of `send_prompt`. -/
structure AttemptsResult where
  result : SendResult
  client : APIClient
  attempts : ℕ
  waits : List ℚ
deriving DecidableEq

/-- The `for attempt in range(self.max_retries)` loop of `send_prompt`
(source lines 126-193), over the list of remaining attempt indices.  On
success the call's token usage is added to the session counter (only when
the response reports usage); rate-limit and API errors back off
`base_backoff * 2 ^ attempt` and retry unless this was the last attempt, in
which case an error result is returned; any other exception returns an
error result at once.  The empty-list case is the unreachable fallback
after the source's loop (source lines 187-193). -/
def runAttempts (c : APIClient) (oracle : ℕ → ApiOutcome) :
    List ℕ → AttemptsResult
  | [] =>
    { result := { response := none, model := c.model, tokens_used := none,
                  error := some "Failed after all retry attempts" },
      client := c, attempts := 0, waits := [] }
  | attempt :: rest =>
    match oracle attempt with
    | .success text tokens =>
      let c2 :=
        match tokens with
        | some t => { c with tokens_used_session := c.tokens_used_session + t }
        | none => c
      { result := { response := some text, model := c.model, tokens_used := tokens,
                    error := none },
        client := c2, attempts := 1, waits := [] }
    | .rateLimit msg =>
      if rest.isEmpty then
        { result := { response := none, model := c.model, tokens_used := none,
                      error := some ("Rate limit error after " ++
                        toString c.max_retries ++ " attempts: " ++ msg) },
          client := c, attempts := 1, waits := [] }
      else
        let w := c.base_backoff * 2 ^ attempt
        let r := runAttempts c oracle rest
        { r with attempts := r.attempts + 1, waits := w :: r.waits }
    | .apiError msg =>
      if rest.isEmpty then
        { result := { response := none, model := c.model, tokens_used := none,
                      error := some ("API error after " ++
                        toString c.max_retries ++ " attempts: " ++ msg) },
          client := c, attempts := 1, waits := [] }
      else
        let w := c.base_backoff * 2 ^ attempt
        let r := runAttempts c oracle rest
        { r with attempts := r.attempts + 1, waits := w :: r.waits }
    | .unexpected msg =>
      { result := { response := none, model := c.model, tokens_used := none,
                    error := some ("Unexpected error: " ++ msg) },
        client := c, attempts := 1, waits := [] }

/-- Overall outcome of `send_prompt`: either a raised `TokenBudgetExceeded`
exception with its message, or a normal return. -/
inductive SendOutcome where
  | raised (msg : String)
  | returned (r : AttemptsResult)
deriving DecidableEq

/-- `APIClient.send_prompt` (source lines 83-193).  First the budget check:
on `exceeded`, either raise `TokenBudgetExceeded` (hard stop) or return an
error result with zero tokens, both without any network attempt; on
`warning`, mark the warning as shown and proceed; then run the retry loop
over attempt indices `0 .. max_retries - 1`. -/
def send_prompt (c : APIClient) (oracle : ℕ → ApiOutcome) : SendOutcome :=
  let status := check_budget c
  if status = "exceeded" then
    if c.hard_stop then .raised (budgetExceededMsg c)
    else
      .returned
        { result := { response := none, model := c.model, tokens_used := some 0,
                      error := some (budgetExceededMsg c) },
          client := c, attempts := 0, waits := [] }
  else
    let c1 := if status = "warning" then { c with warning_shown := true } else c
    .returned (runAttempts c1 oracle (List.range c.max_retries))

/-- Whether a `send_prompt` outcome is a raised `TokenBudgetExceeded`. -/
def sendRaised : SendOutcome → Bool
  | .raised _ => true
  | .returned _ => false

/-- Network attempts made by a returned `send_prompt` outcome (0 for a
raised one). -/
def sendAttempts : SendOutcome → ℕ
  | .raised _ => 0
  | .returned r => r.attempts

/-- Backoff waits slept by a returned `send_prompt` outcome. -/
def sendWaits : SendOutcome → List ℚ
  | .raised _ => []
  | .returned r => r.waits

/-- The `response` field of a returned `send_prompt` outcome. -/
def sendText : SendOutcome → Option String
  | .raised _ => none
  | .returned r => r.result.response

/-- The `error` field of a returned `send_prompt` outcome. -/
def sendError : SendOutcome → Option String
  | .raised _ => none
  | .returned r => r.result.error

/-! ## `ImprovementEngine.run_improvement_loop` (src/improvement_engine.py, lines 42-208)

External collaborators are oracles indexed by the iteration number: `scores`
is the `overall_score` of the quality assessment (a float, modelled `ℚ`),
`sugg` is the combined outcome of researching best practices and generating
suggestions inside the `try` block (a raised `TokenBudgetExceeded` or a
suggestion list, of which only the length matters to the result object),
and `files` is the concatenation of modified-file lists returned by
`_apply_improvement` for the top three suggestions.  Database writes and
console printing are omitted; the returned `results` dictionary is
`LoopResults`.  The unconditional post-loop write
`results['final_score'] = previous_score` of source line 207 is reproduced
in `run_improvement_loop` below. -/

/-- One entry of `results['iterations']` (source lines 179-186). -/
structure IterationRecord where
  iteration : ℕ
  score_before : ℚ
  score_after : ℚ
  improvements : ℕ
  files_modified : List String
deriving DecidableEq

/-- The `results` dictionary of `run_improvement_loop`. -/
structure LoopResults where
  final_score : ℚ
  threshold_met : Bool
  converged : Bool
  budget_exceeded : Bool
  iterations : List IterationRecord
deriving DecidableEq

/-- Outcome of the suggestion-generation `try` block (source lines 127-148). -/
inductive SuggOutcome where
  | ok (criteria : List String)
  | budgetExceeded (msg : String)
deriving DecidableEq

/-- The `for iteration in range(1, max_iterations + 1)` loop (source lines
78-198).  The first argument is the number of remaining iterations
(initially `max_iterations`); then the current iteration number, the running
`previous_score`, the running `convergence_count` and the `results`
accumulator.  Returns the accumulator at loop exit together with the final
value of `previous_score` (needed by source line 207). -/
def loopGo (threshold : ℚ) (convergence_threshold : ℕ) (scores : ℕ → ℚ)
    (sugg : ℕ → SuggOutcome) (files : ℕ → List String) :
    ℕ → ℕ → ℚ → ℕ → LoopResults → LoopResults × ℚ
  | 0, _, prev, _, acc => (acc, prev)
  | fuel + 1, iter, prev, cc, acc =>
    let cur := scores iter
    if cur ≥ threshold then
      ({ acc with final_score := cur, threshold_met := true }, prev)
    else
      let change := |cur - prev|
      let cc2 := if change < 2 then cc + 1 else 0
      if change < 2 ∧ cc2 ≥ convergence_threshold then
        ({ acc with final_score := cur, converged := true }, prev)
      else
        match sugg iter with
        | .budgetExceeded _ =>
          ({ acc with budget_exceeded := true, final_score := cur }, prev)
        | .ok [] => (acc, prev)
        | .ok l =>
          let rcd : IterationRecord :=
            { iteration := iter, score_before := prev, score_after := cur,
              improvements := l.length, files_modified := files iter }
          loopGo threshold convergence_threshold scores sugg files
            fuel (iter + 1) cur cc2 { acc with iterations := acc.iterations ++ [rcd] }

/-- `ImprovementEngine.run_improvement_loop`: run the iteration loop
starting from `previous_score = 0`, `convergence_count = 0`, then perform
source line 207, which overwrites `results['final_score']` with the final
`previous_score` on every path. -/
def run_improvement_loop (threshold : ℚ) (max_iterations convergence_threshold : ℕ)
    (scores : ℕ → ℚ) (sugg : ℕ → SuggOutcome) (files : ℕ → List String) : LoopResults :=
  let init : LoopResults :=
    { final_score := 0, threshold_met := false, converged := false,
      budget_exceeded := false, iterations := [] }
  let out := loopGo threshold convergence_threshold scores sugg files
    max_iterations 1 0 0 init
  { out.1 with final_score := out.2 }

/-! ## `ImprovementEngine._extract_file_code_blocks` and `_apply_improvement`
(src/improvement_engine.py, lines 210-275 and 291-318)

The AI response text is modelled after the two regex scans of the source as
the document-ordered sequence of its tokens: `FILE:` declarations (the
pattern `FILE:\s*(.+?)(?:\n|$)`, carrying the captured path), fenced code
blocks (the DOTALL pattern for a backtick fence, carrying the captured
body), and the remaining plain text.  A fence never spans a `FILE:`
declaration.  For each declaration the source searches the slice of the
response up to the next declaration for its first fence; the resulting
`(path, stripped code)` pairs are assigned into a Python dict in order
(assignment to an existing key overwrites the value in place). -/

/-- One token of a suggestion response. -/
inductive RespItem where
  | fileDecl (path : String)
  | codeFence (content : String)
  | plain (s : String)
deriving DecidableEq

/-- Whether a response token is a `FILE:` declaration. -/
def isFileDecl : RespItem → Bool
  | .fileDecl _ => true
  | _ => false

/-- Whether a response token is a fenced code block. -/
def isCodeFence : RespItem → Bool
  | .codeFence _ => true
  | _ => false

/-- `re.search` of the fence pattern inside one declaration's section: the
first fence before the next `FILE:` declaration (or the end). -/
def sectionFence : List RespItem → Option String
  | [] => none
  | .fileDecl _ :: _ => none
  | .codeFence c :: _ => some c
  | .plain _ :: rest => sectionFence rest

/-- Python dict assignment `m[k] = v` on an insertion-ordered association
list: overwrite in place if the key exists, else append. -/
def dictInsert (m : List (String × String)) (k v : String) : List (String × String) :=
  if m.any (fun p => p.1 == k) then
    m.map (fun p => if p.1 == k then (k, v) else p)
  else m ++ [(k, v)]

/-- The `for i, file_match in enumerate(file_matches)` loop of
`_extract_file_code_blocks` (source lines 304-316), scanning the token list:
each declaration contributes the first fence of its section, stripped, into
the dict; tokens other than declarations only delimit sections. -/
def extractGo : List RespItem → List (String × String) → List (String × String)
  | [], m => m
  | .fileDecl p :: rest, m =>
    (match sectionFence rest with
     | some c =>
       extractGo rest
         (dictInsert m (String.mk (pyStripL p.data)) (String.mk (pyStripL c.data)))
     | none => extractGo rest m)
  | .codeFence _ :: rest, m => extractGo rest m
  | .plain _ :: rest, m => extractGo rest m

/-- `ImprovementEngine._extract_file_code_blocks`: the ordered
`file_code_map` built from an empty dict. -/
def extract_file_code_blocks (items : List RespItem) : List (String × String) :=
  extractGo items []

/-- POSIX `os.path.isabs`. -/
def isAbsPath (p : String) : Bool :=
  match p.data with
  | '/' :: _ => true
  | _ => false

/-- POSIX `os.path.basename`: the part after the last slash. -/
def pyBasename (p : String) : String :=
  String.mk ((p.data.reverse.takeWhile (fun c => c ≠ '/')).reverse)

/-- POSIX `os.path.join` on two components. -/
def pyJoin (a b : String) : String :=
  if isAbsPath b then b
  else if a.data.isEmpty then b
  else if (match a.data.getLast? with | some c => c == '/' | none => false) then a ++ b
  else a ++ "/" ++ b

/-- The path-resolution step of `_apply_improvement` (source lines 253-263):
an absolute path outside the project is re-rooted under the project by its
basename; an absolute path inside the project is kept; a relative path is
joined to the project path. -/
def resolve_full_path (project_path file_path : String) : String :=
  if isAbsPath file_path then
    if !(isPrefL project_path.data file_path.data) then
      pyJoin project_path (pyBasename file_path)
    else file_path
  else pyJoin project_path file_path

/-- The write phase of `_apply_improvement` (source lines 250-275): for each
entry of the extracted map, in order, `cursor.write_file(full_path, code)`
writes exactly `code` to the resolved path (`CursorIntegration.write_file`
writes its `content` argument verbatim).  The returned list is the sequence
of `(resolved path, written content)` pairs; directory creation, write
failures and the relative-path names collected for reporting are omitted. -/
def apply_improvement_writes (project_path : String) (items : List RespItem) :
    List (String × String) :=
  (extract_file_code_blocks items).map
    (fun pc => (resolve_full_path project_path pc.1, pc.2))

/-! ## `Agent` session state and `Agent.run` (src/agent.py)

`AgentState` carries the observable session state: whether a session id is
set, the session row's `status` column in the database (a free-form string,
as `update_session_status` accepts any string), the in-memory `is_paused`
flag, and the logged errors, prompts and responses.  `Agent.run`'s API calls
go through an `APIClient` constructed with default budget settings
(`max_tokens=None`), so `send_prompt` never raises for the agent; the call
results are therefore modelled directly by an oracle from the step number to
the returned dictionary.  Browser actions, file operations, variable
substitution and the post-completion analysis hook do not affect the control
flow or the session status and are omitted; the `KeyboardInterrupt` and
generic exception handlers (source lines 328-340) are outside this
sequential model.  Loops over a cyclic step graph need not terminate, so the
loop takes a fuel bound; all theorems below concern runs that exit within
their fuel. -/

/-- Observable state of an `Agent` and its session row. -/
structure AgentState where
  hasSession : Bool
  sessionStatus : String
  is_paused : Bool
  errors : List (String × String)
  promptsLogged : List (String × ℕ)
  responsesLogged : List String
deriving DecidableEq

/-- `Agent.start_session` (source lines 50-61): create the session row with
status `running` and clear the pause flag. -/
def start_session (s : AgentState) : AgentState :=
  { s with hasSession := true, sessionStatus := "running", is_paused := false }

/-- `Agent.pause_session` (source lines 63-68): when a session id is set,
set the row status to `paused` and the pause flag, unconditionally on the
current status. -/
def pause_session (s : AgentState) : AgentState :=
  if s.hasSession then { s with sessionStatus := "paused", is_paused := true } else s

/-- `Agent.resume_session` (source lines 70-75): when a session id is set,
set the row status to `running` and clear the pause flag, unconditionally on
the current status. -/
def resume_session (s : AgentState) : AgentState :=
  if s.hasSession then { s with sessionStatus := "running", is_paused := false } else s

/-- `Agent.close` (source lines 360-366): when a session id is set, set the
row status to `completed`, unconditionally on the current status. -/
def close_session (s : AgentState) : AgentState :=
  if s.hasSession then { s with sessionStatus := "completed" } else s

/-- The `while current_prompt and not self.is_paused` loop of `Agent.run`
(source lines 245-316).  Arguments after the oracle: fuel, state, current
prompt (`none` models a falsy `current_prompt`), and `step_number`.  Each
pass logs the prompt, asks the oracle for the `send_prompt` result; an error
result logs an `api_error` and leaves the loop; otherwise the response is
logged and the next prompt is the one found by `get_prompt_by_id` for a
truthy `get_next_prompt_id` (an unknown id makes `current_prompt` `None`,
ending the loop on the next pass). -/
def agentLoop (prompts : List Step) (bindings : List (String × String))
    (oracle : ℕ → SendResult) :
    ℕ → AgentState → Option Step → ℕ → AgentState
  | 0, st, _, _ => st
  | _ + 1, st, none, _ => st
  | fuel + 1, st, some cur, stepNum =>
    if st.is_paused then st
    else
      let sn := stepNum + 1
      let pid := cur.id.getD ("step_" ++ toString sn)
      let st1 := { st with promptsLogged := st.promptsLogged ++ [(pid, sn)] }
      let resp := oracle sn
      match resp.error with
      | some e => { st1 with errors := st1.errors ++ [("api_error", e)] }
      | none =>
        let rtext := resp.response.getD ""
        let st2 := { st1 with responsesLogged := st1.responsesLogged ++ [rtext] }
        match get_next_prompt_id prompts bindings cur rtext with
        | some nid =>
          if nid.isEmpty then st2
          else agentLoop prompts bindings oracle fuel st2 (get_prompt_by_id prompts nid) sn
        | none => st2

/-- `Agent.run` (source lines 226-326): ensure a session exists, resolve the
starting prompt (no prompts: return `False`), run the loop, and — whenever
the loop finished with the session not paused — set the session status to
`completed` (source lines 318-321); return `True`. -/
def agent_run (prompts : List Step) (bindings : List (String × String))
    (oracle : ℕ → SendResult) (fuel : ℕ) (s0 : AgentState) : AgentState × Bool :=
  let s1 := if s0.hasSession then s0 else start_session s0
  match get_starting_prompt prompts with
  | none => (s1, false)
  | some p =>
    let st := agentLoop prompts bindings oracle fuel s1 (some p) 0
    if st.is_paused then (st, true)
    else ({ st with sessionStatus := "completed" }, true)

/-! ## Concrete inputs used by witnesses and counterexamples -/

/-- A step with one branch rule (condition false on responses without `x`)
and an explicit `next` of `"C"`. -/
def stepA : Step :=
  { id := some "A", promptText := "pa", start := false,
    conditions := [{ cond := some "response contains \"x\"",
                     thenTarget := some "B", elseTarget := none }],
    next := some "C" }

/-- The positional successor of `stepA` in `cfgABC`. -/
def stepB : Step :=
  { id := some "B", promptText := "pb", start := false, conditions := [], next := none }

/-- The step named by `stepA`'s explicit `next`. -/
def stepC : Step :=
  { id := some "C", promptText := "pc", start := false, conditions := [], next := none }

/-- A three-step graph. -/
def cfgABC : List Step := [stepA, stepB, stepC]

/-- The quality-score sequence `[50, 70, 71, 72]` of the spec's convergence
example, indexed by iteration number. -/
def scoresC6 : ℕ → ℚ :=
  fun n => if n = 1 then 50 else if n = 2 then 70 else if n = 3 then 71
    else if n = 4 then 72 else 0

/-- A suggestion oracle that always yields one suggestion. -/
def suggOk : ℕ → SuggOutcome := fun _ => .ok ["a"]

/-- An apply oracle that modifies no files. -/
def filesNone : ℕ → List String := fun _ => []

/-- The client of the spec's retry example: `max_retries = 3`,
`base_backoff = 1.0`, no token budget. -/
def clientC7 : APIClient :=
  { model := "m", max_retries := 3, base_backoff := 1, max_tokens := none,
    warning_threshold := 4/5, hard_stop := true, tokens_used_session := 0,
    warning_shown := false }

/-- The client of the spec's budget example: `max_tokens = 1000`,
`hard_stop = true`, `tokens_used_session = 1000`. -/
def clientC3 : APIClient :=
  { model := "m", max_retries := 5, base_backoff := 1, max_tokens := some 1000,
    warning_threshold := 4/5, hard_stop := true, tokens_used_session := 1000,
    warning_shown := false }

/-- `clientC3` with the hard stop disabled. -/
def clientC3soft : APIClient := { clientC3 with hard_stop := false }

/-- A fresh running session with empty logs. -/
def st0 : AgentState :=
  { hasSession := true, sessionStatus := "running", is_paused := false,
    errors := [], promptsLogged := [], responsesLogged := [] }

/-- An API oracle whose first call returns an error result and whose later
calls succeed. -/
def oracleErr : ℕ → SendResult := fun n =>
  if n = 1 then { response := none, model := "m", tokens_used := none, error := some "boom" }
  else { response := some "ok", model := "m", tokens_used := some 1, error := none }

/-- An API oracle that always succeeds with response `ok`. -/
def oracleOk : ℕ → SendResult := fun _ =>
  { response := some "ok", model := "m", tokens_used := some 1, error := none }

/-! ## Theorems -/

/-- C4: for every condition string, response string and variable bindings,
condition evaluation returns a boolean (the embedding is a total function
into `Bool`, reflecting that the source never raises); condition text
matching none of the four supported shapes evaluates to `false`; and text
matching is case-insensitive: two responses with the same lower-casing are
evaluated identically under every condition. -/
theorem evaluate_condition_fail_closed_case_insensitive
    (bindings : List (String × String)) (condition r r' : String)
    (hcase : lowerL r.data = lowerL r'.data) :
    (recognizedCondition condition = false →
      evaluate_condition bindings condition r = false) ∧
    evaluate_condition bindings condition r = evaluate_condition bindings condition r' ∧
    (evaluate_condition bindings condition r = true ∨
      evaluate_condition bindings condition r = false) := by
  refine ⟨?_, ?_, ?_⟩
  · intro h
    simp only [recognizedCondition, Bool.or_eq_false_iff, Option.not_isSome,
      Option.isNone_iff_eq_none] at h
    obtain ⟨⟨⟨h1, h2⟩, h3⟩, h4⟩ := h
    simp only [evaluate_condition, h1, h2, h3, h4]
  · have hlen : r.data.length = r'.data.length := by
      have h2 := congrArg List.length hcase
      simpa [lowerL] using h2
    simp only [evaluate_condition, hcase, hlen]
  · cases hb : evaluate_condition bindings condition r
    · exact Or.inr rfl
    · exact Or.inl rfl

/-- Witness for C4: a condition matching none of the four shapes evaluates
to `false`, and a contains-condition treats an upper-case and a lower-case
response identically. -/
theorem evaluate_condition_fail_closed_case_insensitive_witness :
    evaluate_condition [] "no recognizable shape here" "Some Response" = false ∧
    evaluate_condition [] "response contains \"ok\"" "STATUS: OK" =
      evaluate_condition [] "response contains \"ok\"" "status: ok" :=
  ⟨(evaluate_condition_fail_closed_case_insensitive []
      "no recognizable shape here" "Some Response" "Some Response" rfl).1 (by decide),
   (evaluate_condition_fail_closed_case_insensitive []
      "response contains \"ok\"" "STATUS: OK" "status: ok" (by decide)).2.1⟩

/-- The branch-rule scan of the source agrees with the spec's wording of the
scan, for rules that carry a (truthy) condition. -/
theorem ruleScan_eq_specRuleChoice (bindings : List (String × String))
    (response : String) :
    ∀ rules : List BranchRule, (∀ r ∈ rules, isTruthyStr r.cond = true) →
      ruleScan bindings response rules = specRuleChoice bindings response rules := by
  intro rules
  induction rules with
  | nil => intro _; rfl
  | cons r rest ih =>
    intro h
    have hr : isTruthyStr r.cond = true := h r (by simp)
    have hrest : ∀ x ∈ rest, isTruthyStr x.cond = true :=
      fun x hx => h x (by simp [hx])
    by_cases hev : evaluate_condition bindings (r.cond.getD "") response = true
    · simp [ruleScan, specRuleChoice, hr, hev]
    · by_cases hel : isTruthyStr r.elseTarget = true
      · simp [ruleScan, specRuleChoice, hr, hev, hel]
      · simp [ruleScan, specRuleChoice, hr, hev, hel, ih hrest]

/-- C5: branch rules are evaluated in declaration order with first-match
wins; a false rule selects its present `else`, otherwise the scan continues;
when no rule fires the explicit `next` takes precedence over the positional
successor, which in turn precedes ending the sequence — the source function
equals the spec's resolution procedure on every step whose rules carry
conditions.  In particular, on `cfgABC` a single false condition with
explicit `next = "C"` selects `"C"`, not the positional successor `"B"`. -/
theorem get_next_prompt_id_matches_spec :
    (∀ (prompts : List Step) (bindings : List (String × String))
       (current : Step) (response : String),
       (∀ r ∈ current.conditions, isTruthyStr r.cond = true) →
       get_next_prompt_id prompts bindings current response =
         specNextChoice prompts bindings current response) ∧
    get_next_prompt_id cfgABC [] stepA "nope" = some "C" := by
  constructor
  · intro prompts bindings current response h
    unfold get_next_prompt_id specNextChoice
    rw [ruleScan_eq_specRuleChoice bindings response current.conditions h]
  · decide

/-- Witness for C5: the generic part applied to the concrete graph; the
spec-side resolution also yields `"C"` there. -/
theorem get_next_prompt_id_matches_spec_witness :
    get_next_prompt_id cfgABC [] stepA "nope" =
      specNextChoice cfgABC [] stepA "nope" ∧
    specNextChoice cfgABC [] stepA "nope" = some "C" :=
  ⟨get_next_prompt_id_matches_spec.1 cfgABC [] stepA "nope" (by decide), by decide⟩

/-- C3: whenever a maximum token budget is configured and the consumed/maximum
ratio is at least 1, `send_prompt` makes no network attempt: with the hard
stop enabled it raises `TokenBudgetExceeded` immediately, and with the hard
stop disabled it returns a result carrying an error string and zero tokens. -/
theorem send_prompt_budget_exhausted (c : APIClient) (oracle : ℕ → ApiOutcome)
    (m : ℕ) (hm : c.max_tokens = some m) (_hm0 : 0 < m)
    (hr : (1 : ℚ) ≤ (c.tokens_used_session : ℚ) / (m : ℚ)) :
    (c.hard_stop = true → send_prompt c oracle = .raised (budgetExceededMsg c)) ∧
    (c.hard_stop = false → send_prompt c oracle =
      .returned { result := { response := none, model := c.model, tokens_used := some 0,
                              error := some (budgetExceededMsg c) },
                  client := c, attempts := 0, waits := [] }) := by
  have hcb : check_budget c = "exceeded" := by
    simp only [check_budget, hm]
    exact if_pos hr
  constructor
  · intro hh
    simp [send_prompt, hcb, hh]
  · intro hh
    simp [send_prompt, hcb, hh]

/-- Witness for C3: with `max_tokens = 1000` and 1000 tokens consumed, the
hard-stop client raises and the soft-stop client returns an error result
with zero tokens, in both cases with zero network attempts. -/
theorem send_prompt_budget_exhausted_witness :
    send_prompt clientC3 (fun _ => .success "t" (some 5)) =
      .raised (budgetExceededMsg clientC3) ∧
    send_prompt clientC3soft (fun _ => .success "t" (some 5)) =
      .returned { result := { response := none, model := clientC3soft.model,
                              tokens_used := some 0,
                              error := some (budgetExceededMsg clientC3soft) },
                  client := clientC3soft, attempts := 0, waits := [] } :=
  ⟨(send_prompt_budget_exhausted clientC3 (fun _ => .success "t" (some 5)) 1000
      rfl (by decide) (by norm_num [clientC3])).1 rfl,
   (send_prompt_budget_exhausted clientC3soft (fun _ => .success "t" (some 5)) 1000
      rfl (by decide) (by norm_num [clientC3soft, clientC3])).2 rfl⟩

/-- C7: with `max_retries = 3`, `base_backoff = 1` and an oracle that is
rate-limited on every attempt, `send_prompt` (with the budget not exhausted)
makes exactly 3 network attempts, sleeps `1` and then `2` time-units between
consecutive attempts, and returns a result with no text and a descriptive
error instead of raising. -/
theorem send_prompt_persistent_rate_limit (c : APIClient) (oracle : ℕ → ApiOutcome)
    (e : String) (hmr : c.max_retries = 3) (hb : c.base_backoff = 1)
    (hbudget : check_budget c ≠ "exceeded") (ho : ∀ n, oracle n = .rateLimit e) :
    sendRaised (send_prompt c oracle) = false ∧
    sendAttempts (send_prompt c oracle) = 3 ∧
    sendWaits (send_prompt c oracle) = [1, 2] ∧
    sendText (send_prompt c oracle) = none ∧
    sendError (send_prompt c oracle) =
      some ("Rate limit error after 3 attempts: " ++ e) := by
  simp only [send_prompt]
  rw [if_neg hbudget]
  set c1 := if check_budget c = "warning" then { c with warning_shown := true } else c
    with hc1
  have h1 : c1.max_retries = 3 := by
    rw [hc1]; split <;> simp [hmr]
  have h2 : c1.base_backoff = 1 := by
    rw [hc1]; split <;> simp [hb]
  have hrange : List.range 3 = [0, 1, 2] := rfl
  rw [hmr, hrange]
  have hs : ("Rate limit error after " ++ toString (3 : ℕ) ++ " attempts: ") =
      "Rate limit error after 3 attempts: " := by decide
  refine ⟨rfl, ?_, ?_, ?_, ?_⟩
  · simp [sendAttempts, runAttempts, ho]
  · simp only [sendWaits, runAttempts, ho, List.isEmpty]
    norm_num [h2]
  · simp [sendText, runAttempts, ho]
  · simp only [sendError, runAttempts, ho, List.isEmpty]
    simp [h1, hs]

/-- Witness for C7: the concrete client with `max_retries = 3`,
`base_backoff = 1` and no token budget, against an always-rate-limited
oracle. -/
theorem send_prompt_persistent_rate_limit_witness :
    sendRaised (send_prompt clientC7 (fun _ => .rateLimit "rl")) = false ∧
    sendAttempts (send_prompt clientC7 (fun _ => .rateLimit "rl")) = 3 ∧
    sendWaits (send_prompt clientC7 (fun _ => .rateLimit "rl")) = [1, 2] ∧
    sendText (send_prompt clientC7 (fun _ => .rateLimit "rl")) = none ∧
    sendError (send_prompt clientC7 (fun _ => .rateLimit "rl")) =
      some ("Rate limit error after 3 attempts: " ++ "rl") :=
  send_prompt_persistent_rate_limit clientC7 (fun _ => .rateLimit "rl") "rl"
    rfl rfl (by decide) (fun _ => rfl)

/-- C6: in the improvement loop, an iteration with score below the threshold
whose delta to the previous score is smaller than 2 increments the
consecutive counter, and the loop stops with `converged = true` as soon as
the incremented counter reaches the convergence window; an iteration whose
delta is at least 2 resets the counter (the loop's continuation does not
depend on the incoming counter value); and the spec's example — scores
`[50, 70, 71, 72]`, window 2, threshold 85 — stops converged after the 4th
iteration, having recorded exactly the 3 completed iterations. -/
theorem improvement_loop_convergence :
    (∀ (th : ℚ) (ct : ℕ) (scores : ℕ → ℚ) (sugg : ℕ → SuggOutcome)
       (files : ℕ → List String) (fuel iter : ℕ) (prev : ℚ) (cc : ℕ)
       (acc : LoopResults),
       scores iter < th → |scores iter - prev| < 2 → ct ≤ cc + 1 →
       loopGo th ct scores sugg files (fuel + 1) iter prev cc acc =
         ({ acc with final_score := scores iter, converged := true }, prev)) ∧
    (∀ (th : ℚ) (ct : ℕ) (scores : ℕ → ℚ) (sugg : ℕ → SuggOutcome)
       (files : ℕ → List String) (fuel iter : ℕ) (prev : ℚ) (cc cc' : ℕ)
       (acc : LoopResults),
       scores iter < th → 2 ≤ |scores iter - prev| →
       loopGo th ct scores sugg files (fuel + 1) iter prev cc acc =
         loopGo th ct scores sugg files (fuel + 1) iter prev cc' acc) ∧
    ((run_improvement_loop 85 6 2 scoresC6 suggOk filesNone).converged = true ∧
     (run_improvement_loop 85 6 2 scoresC6 suggOk filesNone).threshold_met = false ∧
     (run_improvement_loop 85 6 2 scoresC6 suggOk filesNone).budget_exceeded = false ∧
     (run_improvement_loop 85 6 2 scoresC6 suggOk filesNone).iterations.length = 3) := by
  refine ⟨?_, ?_, ?_⟩
  · intro th ct scores sugg files fuel iter prev cc acc h1 h2 h3
    simp only [loopGo]
    rw [if_neg (not_le.2 h1), if_pos h2]
    rw [if_pos ⟨h2, h3⟩]
  · intro th ct scores sugg files fuel iter prev cc cc' acc h1 h2
    have h2n : ¬(|scores iter - prev| < 2) := not_lt.2 h2
    simp only [loopGo]
    rw [if_neg (not_le.2 h1), if_neg (not_le.2 h1), if_neg h2n, if_neg h2n]
  · refine ⟨?_, ?_, ?_, ?_⟩ <;>
      norm_num [run_improvement_loop, loopGo, scoresC6, suggOk, filesNone]

/-- Witness for C6: the single-step trigger at window 2 with counter 1, and
the counter-reset invariance at a jump from 50 to 70, both at concrete
inputs. -/
theorem improvement_loop_convergence_witness :
    loopGo 85 2 scoresC6 suggOk filesNone 3 4 71 1
        { final_score := 0, threshold_met := false, converged := false,
          budget_exceeded := false, iterations := [] } =
      ({ final_score := 72, threshold_met := false, converged := true,
         budget_exceeded := false, iterations := [] }, 71) ∧
    loopGo 85 2 scoresC6 suggOk filesNone 3 2 50 7
        { final_score := 0, threshold_met := false, converged := false,
          budget_exceeded := false, iterations := [] } =
      loopGo 85 2 scoresC6 suggOk filesNone 3 2 50 0
        { final_score := 0, threshold_met := false, converged := false,
          budget_exceeded := false, iterations := [] } :=
  ⟨improvement_loop_convergence.1 85 2 scoresC6 suggOk filesNone 2 4 71 1 _
      (by norm_num [scoresC6]) (by norm_num [scoresC6]) (by norm_num),
   improvement_loop_convergence.2.1 85 2 scoresC6 suggOk filesNone 2 2 50 7 0 _
      (by norm_num [scoresC6]) (by norm_num [scoresC6])⟩

/-- C2 (failing input): when the quality threshold 85 is met at the first
iteration with overall score 90, the loop stops with `threshold_met = true`,
but the reported final score is the pre-iteration `previous_score` 0 rather
than 90, because source line 207 unconditionally overwrites
`results['final_score']` with `previous_score` after the loop. -/
theorem final_score_overwritten_on_threshold_stop :
    (run_improvement_loop 85 5 2 (fun _ => 90) suggOk filesNone).threshold_met = true ∧
    (run_improvement_loop 85 5 2 (fun _ => 90) suggOk filesNone).final_score = 0 := by
  constructor <;> norm_num [run_improvement_loop, loopGo, suggOk, filesNone]

/-- Scanning tokens that are not `FILE:` declarations leaves the map and the
continuation unchanged. -/
theorem extractGo_append_of_no_decl (l rest : List RespItem)
    (m : List (String × String)) (h : ∀ x ∈ l, isFileDecl x = false) :
    extractGo (l ++ rest) m = extractGo rest m := by
  induction l with
  | nil => rfl
  | cons x t ih =>
    have hx : isFileDecl x = false := h x (List.mem_cons_self x t)
    have ht : ∀ y ∈ t, isFileDecl y = false := fun y hy => h y (List.mem_cons_of_mem x hy)
    cases x with
    | fileDecl p => simp [isFileDecl] at hx
    | codeFence c =>
      rw [List.cons_append]
      simp only [extractGo]
      exact ih ht
    | plain s =>
      rw [List.cons_append]
      simp only [extractGo]
      exact ih ht

/-- A declaration-free suffix contributes nothing to the map. -/
theorem extractGo_no_decl (l : List RespItem) (m : List (String × String))
    (h : ∀ x ∈ l, isFileDecl x = false) : extractGo l m = m := by
  have h2 := extractGo_append_of_no_decl l [] m h
  simpa using h2

/-- The first fence of a section is found past any run of plain text. -/
theorem sectionFence_append_of_plain (l rest : List RespItem)
    (h : ∀ x ∈ l, isFileDecl x = false ∧ isCodeFence x = false) :
    sectionFence (l ++ rest) = sectionFence rest := by
  induction l with
  | nil => rfl
  | cons x t ih =>
    have hx := h x (List.mem_cons_self x t)
    have ht : ∀ y ∈ t, isFileDecl y = false ∧ isCodeFence y = false :=
      fun y hy => h y (List.mem_cons_of_mem x hy)
    cases x with
    | fileDecl p => simp [isFileDecl] at hx
    | codeFence c => simp [isCodeFence] at hx
    | plain s =>
      rw [List.cons_append]
      simp only [sectionFence]
      exact ih ht

/-- C8: a response with exactly one `FILE:` declaration followed by exactly
one fenced code block extracts exactly one `(path, code)` pair — the
declaration's stripped path with the block's text stripped of leading and
trailing whitespace — and the apply phase writes exactly that one file with
exactly that stripped content. -/
theorem single_decl_single_fence_write (pp : String) (pre mid post : List RespItem)
    (p c : String)
    (hpre : ∀ x ∈ pre, isFileDecl x = false)
    (hmid : ∀ x ∈ mid, isFileDecl x = false ∧ isCodeFence x = false)
    (hpost : ∀ x ∈ post, isFileDecl x = false) :
    extract_file_code_blocks
        (pre ++ RespItem.fileDecl p :: (mid ++ RespItem.codeFence c :: post)) =
      [(String.mk (pyStripL p.data), String.mk (pyStripL c.data))] ∧
    apply_improvement_writes pp
        (pre ++ RespItem.fileDecl p :: (mid ++ RespItem.codeFence c :: post)) =
      [(resolve_full_path pp (String.mk (pyStripL p.data)),
        String.mk (pyStripL c.data))] := by
  have hsec : sectionFence (mid ++ RespItem.codeFence c :: post) = some c := by
    rw [sectionFence_append_of_plain mid _ hmid]
    rfl
  have hrest : ∀ x ∈ mid ++ RespItem.codeFence c :: post, isFileDecl x = false := by
    intro x hx
    rcases List.mem_append.1 hx with hx | hx
    · exact (hmid x hx).1
    · rcases List.mem_cons.1 hx with rfl | hx
      · rfl
      · exact hpost x hx
  have hext : extract_file_code_blocks
      (pre ++ RespItem.fileDecl p :: (mid ++ RespItem.codeFence c :: post)) =
      [(String.mk (pyStripL p.data), String.mk (pyStripL c.data))] := by
    unfold extract_file_code_blocks
    rw [extractGo_append_of_no_decl pre _ [] hpre]
    simp only [extractGo, hsec]
    rw [extractGo_no_decl _ _ hrest]
    simp [dictInsert]
  refine ⟨hext, ?_⟩
  unfold apply_improvement_writes
  rw [hext]
  rfl

/-- Witness for C8: a concrete response with one declaration and one fence
results in one write of the stripped block content. -/
theorem single_decl_single_fence_write_witness :
    extract_file_code_blocks
        [.plain "intro", .fileDecl " a.py ", .plain "txt", .codeFence "\nprint(1)\n"] =
      [("a.py", "print(1)")] ∧
    apply_improvement_writes "/proj"
        [.plain "intro", .fileDecl " a.py ", .plain "txt", .codeFence "\nprint(1)\n"] =
      [("/proj/a.py", "print(1)")] := by
  have h := single_decl_single_fence_write "/proj" [.plain "intro"] [.plain "txt"] []
    " a.py " "\nprint(1)\n" (by decide) (by decide) (by decide)
  exact ⟨h.1.trans (by decide), h.2.trans (by decide)⟩

/-- C10: when the same (stripped) path is declared twice, each declaration
paired with a fence, the extracted map keeps only the block paired with the
last declaration, and only that block's stripped content is written. -/
theorem duplicate_decl_last_wins (pp : String)
    (pre mid1 mid2 mid3 post : List RespItem) (p q c1 c2 : String)
    (hpq : pyStripL p.data = pyStripL q.data)
    (hpre : ∀ x ∈ pre, isFileDecl x = false)
    (hmid1 : ∀ x ∈ mid1, isFileDecl x = false ∧ isCodeFence x = false)
    (hmid2 : ∀ x ∈ mid2, isFileDecl x = false)
    (hmid3 : ∀ x ∈ mid3, isFileDecl x = false ∧ isCodeFence x = false)
    (hpost : ∀ x ∈ post, isFileDecl x = false) :
    extract_file_code_blocks
        (pre ++ RespItem.fileDecl p :: (mid1 ++ RespItem.codeFence c1 ::
          (mid2 ++ RespItem.fileDecl q :: (mid3 ++ RespItem.codeFence c2 :: post)))) =
      [(String.mk (pyStripL q.data), String.mk (pyStripL c2.data))] ∧
    apply_improvement_writes pp
        (pre ++ RespItem.fileDecl p :: (mid1 ++ RespItem.codeFence c1 ::
          (mid2 ++ RespItem.fileDecl q :: (mid3 ++ RespItem.codeFence c2 :: post)))) =
      [(resolve_full_path pp (String.mk (pyStripL q.data)),
        String.mk (pyStripL c2.data))] := by
  have hK : String.mk (pyStripL p.data) = String.mk (pyStripL q.data) :=
    congrArg String.mk hpq
  have hsec1 : sectionFence (mid1 ++ RespItem.codeFence c1 ::
      (mid2 ++ RespItem.fileDecl q :: (mid3 ++ RespItem.codeFence c2 :: post))) = some c1 := by
    rw [sectionFence_append_of_plain mid1 _ hmid1]
    rfl
  have hskip : ∀ x ∈ mid1 ++ RespItem.codeFence c1 :: mid2, isFileDecl x = false := by
    intro x hx
    rcases List.mem_append.1 hx with hx | hx
    · exact (hmid1 x hx).1
    · rcases List.mem_cons.1 hx with rfl | hx
      · rfl
      · exact hmid2 x hx
  have hsec2 : sectionFence (mid3 ++ RespItem.codeFence c2 :: post) = some c2 := by
    rw [sectionFence_append_of_plain mid3 _ hmid3]
    rfl
  have hrest : ∀ x ∈ mid3 ++ RespItem.codeFence c2 :: post, isFileDecl x = false := by
    intro x hx
    rcases List.mem_append.1 hx with hx | hx
    · exact (hmid3 x hx).1
    · rcases List.mem_cons.1 hx with rfl | hx
      · rfl
      · exact hpost x hx
  have hassoc : (mid1 ++ RespItem.codeFence c1 ::
      (mid2 ++ RespItem.fileDecl q :: (mid3 ++ RespItem.codeFence c2 :: post))) =
      ((mid1 ++ RespItem.codeFence c1 :: mid2) ++
        (RespItem.fileDecl q :: (mid3 ++ RespItem.codeFence c2 :: post))) := by
    simp
  have hext : extract_file_code_blocks
      (pre ++ RespItem.fileDecl p :: (mid1 ++ RespItem.codeFence c1 ::
        (mid2 ++ RespItem.fileDecl q :: (mid3 ++ RespItem.codeFence c2 :: post)))) =
      [(String.mk (pyStripL q.data), String.mk (pyStripL c2.data))] := by
    unfold extract_file_code_blocks
    rw [extractGo_append_of_no_decl pre _ [] hpre]
    simp only [extractGo, hsec1]
    rw [hassoc, extractGo_append_of_no_decl _ _ _ hskip]
    simp only [extractGo, hsec2]
    rw [extractGo_no_decl _ _ hrest]
    simp [dictInsert, hK]
  refine ⟨hext, ?_⟩
  unfold apply_improvement_writes
  rw [hext]
  rfl

/-- Witness for C10: a concrete response declaring `a.py` twice keeps the
second block only. -/
theorem duplicate_decl_last_wins_witness :
    extract_file_code_blocks
        [.fileDecl "a.py", .codeFence "one", .plain "t", .fileDecl "a.py ",
         .codeFence " two "] =
      [("a.py", "two")] ∧
    apply_improvement_writes "/proj"
        [.fileDecl "a.py", .codeFence "one", .plain "t", .fileDecl "a.py ",
         .codeFence " two "] =
      [("/proj/a.py", "two")] := by
  have h := duplicate_decl_last_wins "/proj" [] [] [.plain "t"] [] []
    "a.py" "a.py " "one" " two " (by decide) (by decide) (by decide) (by decide)
    (by decide) (by decide)
  exact ⟨h.1.trans (by decide), h.2.trans (by decide)⟩

/-- C1 (amended): when `send_prompt` yields an error result at any step, the
executor logs an `api_error` and leaves the loop at once (no further step is
attempted); since the session is not paused, the post-loop code then marks
the session `completed` — the status is not left as-is and the session is
not marked failed. -/
theorem run_error_result_behavior :
    (∀ (prompts : List Step) (bindings : List (String × String))
       (oracle : ℕ → SendResult) (fuel : ℕ) (st : AgentState) (cur : Step)
       (stepNum : ℕ) (e : String),
       st.is_paused = false → (oracle (stepNum + 1)).error = some e →
       agentLoop prompts bindings oracle (fuel + 1) st (some cur) stepNum =
         { st with
             promptsLogged := st.promptsLogged ++
               [(cur.id.getD ("step_" ++ toString (stepNum + 1)), stepNum + 1)],
             errors := st.errors ++ [("api_error", e)] }) ∧
    (∀ (prompts : List Step) (bindings : List (String × String))
       (oracle : ℕ → SendResult) (fuel : ℕ) (s0 : AgentState) (p : Step) (e : String),
       s0.hasSession = true → s0.is_paused = false →
       get_starting_prompt prompts = some p → (oracle 1).error = some e →
       agent_run prompts bindings oracle (fuel + 1) s0 =
         ({ s0 with
              promptsLogged := s0.promptsLogged ++ [(p.id.getD ("step_" ++ toString 1), 1)],
              errors := s0.errors ++ [("api_error", e)],
              sessionStatus := "completed" }, true)) := by
  have part1 : ∀ (prompts : List Step) (bindings : List (String × String))
      (oracle : ℕ → SendResult) (fuel : ℕ) (st : AgentState) (cur : Step)
      (stepNum : ℕ) (e : String),
      st.is_paused = false → (oracle (stepNum + 1)).error = some e →
      agentLoop prompts bindings oracle (fuel + 1) st (some cur) stepNum =
        { st with
            promptsLogged := st.promptsLogged ++
              [(cur.id.getD ("step_" ++ toString (stepNum + 1)), stepNum + 1)],
            errors := st.errors ++ [("api_error", e)] } := by
    intro prompts bindings oracle fuel st cur stepNum e hp he
    simp [agentLoop, hp, he]
  refine ⟨part1, ?_⟩
  intro prompts bindings oracle fuel s0 p e hs hp hstart he
  simp only [agent_run, hstart]
  rw [if_pos hs]
  rw [part1 prompts bindings oracle fuel s0 p 0 e hp he]
  simp [hp]

/-- Witness for C1's amended theorem: the two-step graph `cfgABC` with an
error on the first call. -/
theorem run_error_result_behavior_witness :
    agent_run cfgABC [] oracleErr 10 st0 =
      ({ st0 with promptsLogged := [("A", 1)], errors := [("api_error", "boom")],
                  sessionStatus := "completed" }, true) := by
  have h := run_error_result_behavior.2 cfgABC [] oracleErr 9 st0 stepA "boom"
    rfl rfl (by decide) rfl
  simpa [st0, stepA] using h

/-- C1 (counterexample to the claim as stated): with an error result at the
first step, the loop ends early with the error logged, but the session's
status — `running` before the call — is set to `completed` by `run`; it is
not left as-is. -/
theorem run_error_marks_completed :
    st0.sessionStatus = "running" ∧
    (agent_run cfgABC [] oracleErr 10 st0).1.errors = [("api_error", "boom")] ∧
    (agent_run cfgABC [] oracleErr 10 st0).1.promptsLogged = [("A", 1)] ∧
    (agent_run cfgABC [] oracleErr 10 st0).1.sessionStatus = "completed" := by
  decide

/-- C9 (amended): whenever a session id is set, `pause_session`,
`resume_session` and `close` update the stored status unconditionally — to
`paused`, `running` and `completed` respectively — regardless of the current
status, so the terminal status `completed` is not protected; and none of the
session operations ever assigns the status `failed`. -/
theorem session_ops_unconditional (s : AgentState) (hs : s.hasSession = true) :
    (pause_session s).sessionStatus = "paused" ∧
    (resume_session s).sessionStatus = "running" ∧
    (close_session s).sessionStatus = "completed" ∧
    (pause_session s).sessionStatus ≠ "failed" ∧
    (resume_session s).sessionStatus ≠ "failed" ∧
    (close_session s).sessionStatus ≠ "failed" ∧
    (start_session s).sessionStatus ≠ "failed" := by
  refine ⟨?_, ?_, ?_, ?_, ?_, ?_, ?_⟩ <;>
    simp [pause_session, resume_session, close_session, start_session, hs]

/-- Witness for C9's amended theorem: pausing a completed session and
closing a paused one, at concrete states. -/
theorem session_ops_unconditional_witness :
    (pause_session { st0 with sessionStatus := "completed" }).sessionStatus = "paused" ∧
    (close_session { st0 with sessionStatus := "paused" }).sessionStatus = "completed" :=
  ⟨(session_ops_unconditional { st0 with sessionStatus := "completed" } rfl).1,
   (session_ops_unconditional { st0 with sessionStatus := "paused" } rfl).2.2.1⟩

/-- C9 (counterexample to the claim as stated): a session that ended in the
terminal status `completed` is moved to `paused` by a subsequent
`pause_session`, so `Completed` is left by a program operation. -/
theorem pause_leaves_completed :
    (agent_run cfgABC [] oracleOk 10 st0).1.sessionStatus = "completed" ∧
    (pause_session (agent_run cfgABC [] oracleOk 10 st0).1).sessionStatus = "paused" := by
  decide

end AIAgent
